import Mathlib

/-!
Verification of the CreamySoup/soup recipe-driven synchronization pipeline
(`soup.py`).

The development is a shallow embedding of the script's hashing, fetching,
sync/verify, recipe-processing and self-update logic.  Bytes are modelled as
`List Nat` (each element a byte value), machine 32-bit words in the SHA-256
model are `Nat` reduced modulo `2 ^ 32` at every step, and fallible external
operations (network, zip archive, JSON parsing, the configured text codec)
are supplied as explicit environment parameters.  Deterministic pieces of the
script (SHA-256 via hashlib, UTF-8 file IO round-trips, hex digests, hash
comparison, branch structure of `check_for_updates` and `self_update`) are
translated directly from the source.
-/

/-! ## SHA-256 (model of `hashlib.sha256(data).hexdigest()`) -/

def w32 : Nat := 4294967296

/-- Right rotation of a 32-bit word. -/
def rotr32 (n x : Nat) : Nat := ((x >>> n) ||| (x <<< (32 - n))) % w32

/-- Bitwise complement within 32 bits (inputs are kept below `2 ^ 32`). -/
def bnot32 (x : Nat) : Nat := 4294967295 - x % w32

/-- SHA-256 round constants (fractional parts of cube roots of primes). -/
def shaK : List Nat :=
  [1116352408, 1899447441, 3049323471, 3921009573, 961987163, 1508970993,
   2453635748, 2870763221, 3624381080, 310598401, 607225278, 1426881987,
   1925078388, 2162078206, 2614888103, 3248222580, 3835390401, 4022224774,
   264347078, 604807628, 770255983, 1249150122, 1555081692, 1996064986,
   2554220882, 2821834349, 2952996808, 3210313671, 3336571891, 3584528711,
   113926993, 338241895, 666307205, 773529912, 1294757372, 1396182291,
   1695183700, 1986661051, 2177026350, 2456956037, 2730485921, 2820302411,
   3259730800, 3345764771, 3516065817, 3600352804, 4094571909, 275423344,
   430227734, 506948616, 659060556, 883997877, 958139571, 1322822218,
   1537002063, 1747873779, 1955562222, 2024104815, 2227730452, 2361852424,
   2428436474, 2756734187, 3204031479, 3329325298]

/-- Working registers of the SHA-256 compression function. -/
structure Regs where
  a : Nat
  b : Nat
  c : Nat
  d : Nat
  e : Nat
  f : Nat
  g : Nat
  hh : Nat
deriving DecidableEq

/-- SHA-256 initial hash value. -/
def shaH0 : Regs :=
  ⟨1779033703, 3144134277, 1013904242, 2773480762, 1359893119, 2600822924,
   528734635, 1541459225⟩

/-- One round of the SHA-256 compression function. -/
def shaRound (r : Regs) (kw : Nat × Nat) : Regs :=
  let s1 := rotr32 6 r.e ^^^ rotr32 11 r.e ^^^ rotr32 25 r.e
  let ch := (r.e &&& r.f) ^^^ (bnot32 r.e &&& r.g)
  let t1 := (r.hh + s1 + ch + kw.1 + kw.2) % w32
  let s0 := rotr32 2 r.a ^^^ rotr32 13 r.a ^^^ rotr32 22 r.a
  let mj := (r.a &&& r.b) ^^^ (r.a &&& r.c) ^^^ (r.b &&& r.c)
  let t2 := (s0 + mj) % w32
  ⟨(t1 + t2) % w32, r.a, r.b, r.c, (r.d + t1) % w32, r.e, r.f, r.g⟩

/-- Big-endian 32-bit words from a byte list. -/
def bytesToWords : List Nat → List Nat
  | b0 :: b1 :: b2 :: b3 :: rest =>
      (((b0 * 256 + b1) * 256 + b2) * 256 + b3) :: bytesToWords rest
  | _ => []

/-- Extend the 16-word message schedule by `n` further words. -/
def shaExtend : Nat → List Nat → List Nat
  | 0, w => w
  | n + 1, w =>
      let i := w.length
      let w15 := w.getD (i - 15) 0
      let w2 := w.getD (i - 2) 0
      let s0 := rotr32 7 w15 ^^^ rotr32 18 w15 ^^^ (w15 >>> 3)
      let s1 := rotr32 17 w2 ^^^ rotr32 19 w2 ^^^ (w2 >>> 10)
      shaExtend n (w ++ [(w.getD (i - 16) 0 + s0 + w.getD (i - 7) 0 + s1) % w32])

/-- SHA-256 compression of one 64-byte block. -/
def shaCompress (hs : Regs) (block : List Nat) : Regs :=
  let ws := shaExtend 48 (bytesToWords block)
  let r := (List.zip shaK ws).foldl shaRound hs
  ⟨(hs.a + r.a) % w32, (hs.b + r.b) % w32, (hs.c + r.c) % w32,
   (hs.d + r.d) % w32, (hs.e + r.e) % w32, (hs.f + r.f) % w32,
   (hs.g + r.g) % w32, (hs.hh + r.hh) % w32⟩

/-- SHA-256 padding: append `0x80`, zeros, and the 64-bit bit length. -/
def shaPad (msg : List Nat) : List Nat :=
  let len := msg.length
  let zeros := (119 - len % 64) % 64
  let bl := (len * 8) % 2 ^ 64
  msg ++ 128 :: List.replicate zeros 0 ++
    [bl / 2 ^ 56 % 256, bl / 2 ^ 48 % 256, bl / 2 ^ 40 % 256,
     bl / 2 ^ 32 % 256, bl / 2 ^ 24 % 256, bl / 2 ^ 16 % 256,
     bl / 2 ^ 8 % 256, bl % 256]

/-- Fold the compression function over consecutive 64-byte blocks
(fuel-indexed so that the function reduces by structural recursion; the
fuel is the list length, an upper bound on the number of blocks). -/
def shaBlocksAux : Nat → Regs → List Nat → Regs
  | 0, r, _ => r
  | _ + 1, r, [] => r
  | n + 1, r, x :: rest =>
      shaBlocksAux n (shaCompress r ((x :: rest).take 64)) ((x :: rest).drop 64)

def shaBlocks (r : Regs) (l : List Nat) : Regs := shaBlocksAux l.length r l

/-- The 32 output bytes of a final register state, big-endian. -/
def shaDigestBytes (r : Regs) : List Nat :=
  [r.a, r.b, r.c, r.d, r.e, r.f, r.g, r.hh].flatMap fun w =>
    [w / 2 ^ 24 % 256, w / 2 ^ 16 % 256, w / 2 ^ 8 % 256, w % 256]

/-- Lowercase hex character for a nibble. -/
def hexChar (n : Nat) : Char := "0123456789abcdef".toList.getD n '0'

/-- A character is a lowercase hexadecimal digit. -/
def isHexChar (c : Char) : Bool := c.isDigit || "abcdef".toList.contains c

/-- `hashlib.sha256(msg).hexdigest()`. -/
def sha256hex (msg : List Nat) : String :=
  ⟨(shaDigestBytes (shaBlocks shaH0 (shaPad msg))).flatMap fun b =>
    [hexChar (b / 16), hexChar (b % 16)]⟩

/-- `get_data_hash` (soup.py lines 130-134): hex SHA-256 of a byte buffer.
The source's `assert len(res) > 0` is established as a theorem below. -/
def get_data_hash (data : List Nat) : String := sha256hex data

/-! ## UTF-8 (model of the hardcoded `encoding="utf-8"` used by `open`)

`soup.py` opens every local artifact in text mode with `encoding="utf-8"`
and `newline="\n"` (no newline translation), so the bytes on disk are the
UTF-8 encoding of the text that was written, and `file.read()` is UTF-8
decoding of the bytes on disk (raising `UnicodeDecodeError`, modelled as
`none`, on invalid data). -/

def utf8EncChar (c : Char) : List Nat :=
  let n := c.toNat
  if n < 128 then [n]
  else if n < 2048 then [192 + n / 64, 128 + n % 64]
  else if n < 65536 then [224 + n / 4096, 128 + n / 64 % 64, 128 + n % 64]
  else [240 + n / 262144, 128 + n / 4096 % 64, 128 + n / 64 % 64, 128 + n % 64]

def utf8Enc (s : String) : List Nat := s.data.flatMap utf8EncChar

/-- A UTF-8 continuation byte. -/
def utf8Cont (b : Nat) : Bool := 128 ≤ b && b < 192

/-- Fuel-indexed UTF-8 decoder (fuel is the byte count, so it never runs
out); rejects stray continuation bytes, truncated sequences, overlong
encodings, surrogates and out-of-range code points. -/
def utf8DecAux : Nat → List Nat → Option (List Char)
  | _, [] => some []
  | 0, _ :: _ => none
  | fuel + 1, b :: rest =>
    if b < 128 then (utf8DecAux fuel rest).map (fun cs => Char.ofNat b :: cs)
    else if b < 192 then none
    else if b < 224 then
      match rest with
      | b1 :: rest1 =>
        if utf8Cont b1 then
          let n := (b - 192) * 64 + (b1 - 128)
          if 128 ≤ n then (utf8DecAux fuel rest1).map (fun cs => Char.ofNat n :: cs)
          else none
        else none
      | [] => none
    else if b < 240 then
      match rest with
      | b1 :: b2 :: rest2 =>
        if utf8Cont b1 && utf8Cont b2 then
          let n := (b - 224) * 4096 + (b1 - 128) * 64 + (b2 - 128)
          if 2048 ≤ n && !(55296 ≤ n && n < 57344) then
            (utf8DecAux fuel rest2).map (fun cs => Char.ofNat n :: cs)
          else none
        else none
      | _ => none
    else if b < 248 then
      match rest with
      | b1 :: b2 :: b3 :: rest3 =>
        if utf8Cont b1 && utf8Cont b2 && utf8Cont b3 then
          let n := (b - 240) * 262144 + (b1 - 128) * 4096 +
                   (b2 - 128) * 64 + (b3 - 128)
          if 65536 ≤ n && n < 1114112 then
            (utf8DecAux fuel rest3).map (fun cs => Char.ofNat n :: cs)
          else none
        else none
      | _ => none
    else none

def utf8Dec (l : List Nat) : Option String :=
  (utf8DecAux l.length l).map fun cs => ⟨cs⟩

/-! ## Configured text codec and file hashing

The script decodes/encodes under a user-configured encoding
(`CFG["encoding"]`), performed by Python's codec machinery — an external
collaborator.  It is modelled as an explicit parameter: an encode function
(total, as for the common configured encodings) and a fallible decode. -/

structure Codec where
  enc : String → List Nat
  dec : List Nat → Option String

/-- The codec instance for a configuration whose `encoding` is `utf-8`. -/
def utf8Codec : Codec := ⟨utf8Enc, utf8Dec⟩

/-- `get_file_hash` (soup.py lines 122-127).  The argument is the raw byte
content of the opened file: `file.read()` UTF-8-decodes it (the file was
opened with `encoding="utf-8"`), a `UnicodeDecodeError` is caught and the
empty string returned; otherwise the text is re-encoded under the
configured encoding and hashed by `get_data_hash`. -/
def get_file_hash (codec : Codec) (disk : List Nat) : String :=
  match utf8Dec disk with
  | none => ""
  | some txt => get_data_hash (codec.enc txt)

/-- The `hashes_match` flag (soup.py lines 289-290 / 360-361):
`inc_exists_locally and local_inc_hash == remote_inc_hash`.  The local
content is `cur` (its `getD []` default is unreachable: the flag is `true`
only when the file existed). -/
def hashes_match (codec : Codec) (existsLocally : Bool)
    (cur : Option (List Nat)) (remote : List Nat) : Bool :=
  existsLocally && (get_file_hash codec (cur.getD []) == get_data_hash remote)

/-- Result of one local-file sync (soup.py lines 280-328 for includes,
350-392 for plugins; both blocks are line-for-line identical up to
variable names, so a single definition models both). -/
inductive SyncRes where
  | unchanged
  | updated
  | decodeFatal
  | verifyFailed (got expected : String)
deriving DecidableEq

/-- One sync of a local file against fetched remote bytes, returning the
result and the new on-disk content:
if the hashes match, nothing is written; otherwise the remote bytes are
decoded under the configured encoding (an undecodable remote is an uncaught
`UnicodeDecodeError`, `decodeFatal`; when the file did not exist it has
already been truncated to empty by `open(..., "w")`), the decoded text is
written through the UTF-8 text layer, the file is re-opened and re-hashed,
and the `assert` comparing the fresh hash with the remote hash either
passes (`updated`) or fails (`verifyFailed`, a fatal `AssertionError`). -/
def syncStep (codec : Codec) (existsLocally : Bool)
    (cur : Option (List Nat)) (remote : List Nat) :
    SyncRes × Option (List Nat) :=
  if hashes_match codec existsLocally cur remote then (.unchanged, cur)
  else
    match codec.dec remote with
    | none => (.decodeFatal, if existsLocally then cur else some [])
    | some txt =>
        let newDisk := utf8Enc txt
        let newHash := get_file_hash codec newDisk
        if newHash == get_data_hash remote then (.updated, some newDisk)
        else (.verifyFailed newHash (get_data_hash remote), some newDisk)

/-! ## Remote fetching (`get_url_contents`, soup.py lines 93-107) -/

/-- Outcome of the transport-level HTTP client for a given URL (external
collaborator): either the raw response bytes or an `HTTPError` with a
status code. -/
inductive NetResp where
  | success (data : List Nat)
  | httpError (code : Nat)
deriving DecidableEq

/-- Recipe sections that carry entries. -/
inductive Sect where
  | inc
  | plug
deriving DecidableEq

/-- Observable events of a run (network accesses, writes, subprocesses). -/
inductive Ev where
  | fetch (url : String)
  | procSrc (s : Sect) (nm url : String)
  | skipEntry (nm : String)
  | syncEv (s : Sect) (nm : String) (res : SyncRes)
  | compileEv (bin src : String) (code : Nat)
  | installEv (nm fromPath toPath : String)
  | deprecatedWarn
deriving DecidableEq

/-- Uncaught exceptions that terminate the process (assertion failures,
re-raised HTTP errors, decode errors, subprocess failures, ...). -/
inductive Fatal where
  | assertNotHttps (url : String)
  | httpError (code : Nat)
  | unicodeDecode
  | jsonError
  | nameError
  | assertVerify (got expected : String)
  | compilerMissing
  | calledProcessError (code : Nat)
  | missingSmx (nm : String)
  | keyError (member : String)
deriving DecidableEq

/-- First decimal digit of a status code: `int(str(err.code)[:1])`
(fuel-indexed division loop so the definition reduces structurally). -/
def firstDigitAux : Nat → Nat → Nat
  | 0, n => n
  | fuel + 1, n => if n < 10 then n else firstDigitAux fuel (n / 10)

def firstDigit (n : Nat) : Nat := firstDigitAux n n

/-- Python's `url.startswith("https://")`: the first eight characters of
the URL are the `https` scheme prefix. -/
def startsWithHttps (url : String) : Bool := url.data.take 8 == "https://".data

/-- Python's slice `s[:n]`. -/
def strTake (s : String) (n : Nat) : String := ⟨s.data.take n⟩

/-- `get_url_contents(url)`: asserts the URL uses the `https` scheme
(an `AssertionError` otherwise), then fetches it; an `HTTPError` whose
code has first digit 5 is logged and `None` returned, any other
`HTTPError` is re-raised.  The event list records the network access
performed by `urlopen`. -/
def get_url_contents (net : String → NetResp) (url : String) :
    List Ev × Except Fatal (Option (List Nat)) :=
  if startsWithHttps url then
    ([.fetch url],
      match net url with
      | .success d => .ok (some d)
      | .httpError code =>
          if firstDigit code = 5 then .ok none
          else .error (.httpError code))
  else ([], .error (.assertNotHttps url))

/-! ## Filesystem and path model

`os.path.join` is modelled as `/`-separated concatenation (the script runs
relative paths from the game root); the filesystem is an association list
from path to byte content. -/

abbrev Fs := List (String × List Nat)

def fsGet (fs : Fs) (p : String) : Option (List Nat) :=
  match fs.find? (fun e => e.1 == p) with
  | some e => some e.2
  | none => none

def fsSet (fs : Fs) (p : String) (v : Option (List Nat)) : Fs :=
  match v with
  | some d => (p, d) :: fs.filter (fun e => !(e.1 == p))
  | none => fs.filter (fun e => !(e.1 == p))

/-- `./<game_dir>/addons/sourcemod/plugins` (soup.py lines 66-67). -/
def pluginsLocalPath (gameDir : String) : String :=
  "./" ++ gameDir ++ "/addons/sourcemod/plugins"

/-- `./<game_dir>/addons/sourcemod/scripting` (soup.py lines 69-70). -/
def scriptingLocalPath (gameDir : String) : String :=
  "./" ++ gameDir ++ "/addons/sourcemod/scripting"

/-- The `scripting/include` directory (soup.py line 72). -/
def includesLocalPath (gameDir : String) : String :=
  scriptingLocalPath gameDir ++ "/include"

/-- The compiler lives in the scripting directory (soup.py line 78). -/
def pluginsCompilerPath (gameDir : String) : String := scriptingLocalPath gameDir

/-! ## Recipe model (`check_for_updates`, soup.py lines 230-439) -/

/-- One manifest entry: the ordered `key: value` pairs of a JSON object
(Python dicts preserve insertion order, and the script walks
`kv_pair.items()` generically). -/
abbrev EntryKVs := List (String × String)

/-- Parsed recipe manifest: the three recognised top-level sections.
`updater` records only presence (the section is deprecated and ignored). -/
structure RecipeJson where
  includes : Option (List (Option EntryKVs))
  plugins : Option (List (Option EntryKVs))
  updater : Bool
deriving DecidableEq

/-- Program environment: configuration plus external collaborators
(network, JSON parser, compiler subprocess behaviour). -/
structure Ctx where
  gameDir : String
  codec : Codec
  net : String → NetResp
  parseJson : String → Option RecipeJson
  compilerExists : Bool
  compileExit : String → Nat
  smxOutput : String → Option (List Nat)
  platformIsWindows : Bool

/-- Entry-tracking variables set when a `name` key is processed
(`include_name` / `local_inc_path` / `inc_exists_locally`, and their
plugin counterparts). -/
structure EntryCtx where
  nm : String
  path : String
  existsLocally : Bool
deriving DecidableEq

/-- Mutable state of one `check_for_updates` call: the filesystem, the
(function-scoped, hence entry-crossing) name-tracking variables of both
sections, the four counters, and the event trace. -/
structure RunSt where
  fs : Fs
  incCtx : Option EntryCtx
  plugCtx : Option EntryCtx
  nIncProcessed : Nat
  nIncUpdated : Nat
  nPlugProcessed : Nat
  nPlugUpdated : Nat
  trace : List Ev
deriving DecidableEq

def getCtx (sect : Sect) (st : RunSt) : Option EntryCtx :=
  match sect with
  | .inc => st.incCtx
  | .plug => st.plugCtx

def setCtx (sect : Sect) (st : RunSt) (c : EntryCtx) : RunSt :=
  match sect with
  | .inc => { st with incCtx := some c }
  | .plug => { st with plugCtx := some c }

def bumpProcessed (sect : Sect) (st : RunSt) : RunSt :=
  match sect with
  | .inc => { st with nIncProcessed := st.nIncProcessed + 1 }
  | .plug => { st with nPlugProcessed := st.nPlugProcessed + 1 }

def bumpUpdated (sect : Sect) (st : RunSt) : RunSt :=
  match sect with
  | .inc => { st with nIncUpdated := st.nIncUpdated + 1 }
  | .plug => { st with nPlugUpdated := st.nPlugUpdated + 1 }

def addTrace (st : RunSt) (evs : List Ev) : RunSt :=
  { st with trace := st.trace ++ evs }

/-- Local path of an entry: `<includes>/<name>.inc` or
`<scripting>/<name>.sp` (soup.py lines 262-263 and 333-334). -/
def entryLocalPath (ctx : Ctx) (sect : Sect) (nm : String) : String :=
  match sect with
  | .inc => includesLocalPath ctx.gameDir ++ "/" ++ nm ++ ".inc"
  | .plug => scriptingLocalPath ctx.gameDir ++ "/" ++ nm ++ ".sp"

/-- `spcomp.exe` on Windows, `spcomp` otherwise (soup.py lines 397-402). -/
def compilerBinary (ctx : Ctx) : String :=
  if ctx.platformIsWindows then "spcomp.exe" else "spcomp"

def compilerPath (ctx : Ctx) : String :=
  pluginsCompilerPath ctx.gameDir ++ "/" ++ compilerBinary ctx

/-- The compile-and-install phase for a plugin entry whose source was just
updated and verified (soup.py lines 394-434): assert the compiler binary
exists, run it (`check=True`, so a non-zero exit raises
`CalledProcessError`), assert `./<name>.smx` exists, move it into the
plugins directory and bump `num_plugins_updated`. -/
def installPhase (ctx : Ctx) (c : EntryCtx) (st : RunSt) :
    Except (Fatal × RunSt) RunSt :=
  if ctx.compilerExists then
    let ex := ctx.compileExit c.path
    let smxPath := "./" ++ c.nm ++ ".smx"
    let fsA := match ctx.smxOutput c.nm with
               | some b => fsSet st.fs smxPath (some b)
               | none => st.fs
    let st1 := addTrace { st with fs := fsA } [.compileEv (compilerPath ctx) c.path ex]
    if ex == 0 then
      match fsGet st1.fs smxPath with
      | none => .error (.missingSmx c.nm, st1)
      | some smx =>
          let dest := pluginsLocalPath ctx.gameDir ++ "/" ++ c.nm ++ ".smx"
          let st2 := addTrace
            { st1 with fs := fsSet (fsSet st1.fs smxPath none) dest (some smx) }
            [.installEv c.nm smxPath dest]
          .ok (bumpUpdated .plug st2)
    else .error (.calledProcessError ex, st1)
  else .error (.compilerMissing, st)

/-- Processing of a single `key: value` pair of an entry, translating the
include block (soup.py lines 259-328) and the plugin block (lines
330-434); the two blocks are identical except for paths and the
compile/install phase, so they share this definition parametrised by the
section.  A `name` key sets the entry-tracking variables and bumps the
processed counter; a `source_url` key fetches the remote content (a `None`
fetch logs and skips), syncs the local file, and — for plugins — compiles
and installs on update.  Consulting the tracking variables before any
`name` was seen is a Python `NameError`. -/
def procKV (ctx : Ctx) (sect : Sect) (st : RunSt) (key value : String) :
    Except (Fatal × RunSt) RunSt :=
  if key == "name" then
    let path := entryLocalPath ctx sect value
    .ok (bumpProcessed sect
          (setCtx sect st ⟨value, path, (fsGet st.fs path).isSome⟩))
  else if key == "source_url" then
    let st1 := addTrace st (get_url_contents ctx.net value).1
    match (get_url_contents ctx.net value).2 with
    | .error f => .error (f, st1)
    | .ok fetched =>
        match getCtx sect st1 with
        | none => .error (.nameError, st1)
        | some c =>
            let st2 := addTrace st1 [.procSrc sect c.nm value]
            match fetched with
            | none => .ok (addTrace st2 [.skipEntry c.nm])
            | some remote =>
                let disk1 := (syncStep ctx.codec c.existsLocally
                               (fsGet st2.fs c.path) remote).2
                let st3 := addTrace { st2 with fs := fsSet st2.fs c.path disk1 }
                             [.syncEv sect c.nm
                               (syncStep ctx.codec c.existsLocally
                                 (fsGet st2.fs c.path) remote).1]
                match (syncStep ctx.codec c.existsLocally
                        (fsGet st2.fs c.path) remote).1 with
                | .unchanged => .ok st3
                | .decodeFatal => .error (.unicodeDecode, st3)
                | .verifyFailed got expected =>
                    .error (.assertVerify got expected, st3)
                | .updated =>
                    match sect with
                    | .inc => .ok (bumpUpdated .inc st3)
                    | .plug => installPhase ctx c st3
  else .ok st

def runKVs (ctx : Ctx) (sect : Sect) : RunSt → EntryKVs →
    Except (Fatal × RunSt) RunSt
  | st, [] => .ok st
  | st, (k, v) :: rest =>
      match procKV ctx sect st k v with
      | .error e => .error e
      | .ok st1 => runKVs ctx sect st1 rest

/-- One entry of a section; a JSON `null` entry is skipped. -/
def procEntry (ctx : Ctx) (sect : Sect) (st : RunSt) :
    Option EntryKVs → Except (Fatal × RunSt) RunSt
  | none => .ok st
  | some kvs => runKVs ctx sect st kvs

def procEntries (ctx : Ctx) (sect : Sect) : RunSt → List (Option EntryKVs) →
    Except (Fatal × RunSt) RunSt
  | st, [] => .ok st
  | st, e :: rest =>
      match procEntry ctx sect st e with
      | .error err => .error err
      | .ok st1 => procEntries ctx sect st1 rest

/-- A missing section is skipped (`json_data.get(root_section) is None`). -/
def procSection (ctx : Ctx) (sect : Sect) (st : RunSt)
    (entries : Option (List (Option EntryKVs))) : Except (Fatal × RunSt) RunSt :=
  match entries with
  | none => .ok st
  | some es => procEntries ctx sect st es

/-- The fixed `root_sections` walk of a parsed recipe (soup.py lines
246-254): `includes`, then `plugins`, then the deprecated `updater`
section, which only triggers a warning when present. -/
def procRecipe (ctx : Ctx) (st : RunSt) (recipe : RecipeJson) :
    Except (Fatal × RunSt) RunSt :=
  match procSection ctx .inc st recipe.includes with
  | .error e => .error e
  | .ok st2 =>
      match procSection ctx .plug st2 recipe.plugins with
      | .error e => .error e
      | .ok st3 =>
          .ok (if recipe.updater then addTrace st3 [.deprecatedWarn] else st3)

/-- `check_for_updates(recipe)` (soup.py lines 230-439): fetch the recipe
manifest (a `None` result aborts the recipe silently with zero counters),
decode it under the configured encoding, parse JSON, then walk the
sections. -/
def check_for_updates (ctx : Ctx) (fs0 : Fs) (recipeUrl : String) :
    Except (Fatal × RunSt) RunSt :=
  let st0 : RunSt := ⟨fs0, none, none, 0, 0, 0, 0, []⟩
  let st1 := addTrace st0 (get_url_contents ctx.net recipeUrl).1
  match (get_url_contents ctx.net recipeUrl).2 with
  | .error f => .error (f, st1)
  | .ok none => .ok st1
  | .ok (some bytes) =>
      match ctx.codec.dec bytes with
      | none => .error (.unicodeDecode, st1)
      | some s =>
          match ctx.parseJson s with
          | none => .error (.jsonError, st1)
          | some recipe => procRecipe ctx st1 recipe

/-- The recipe loop of `main()` (soup.py lines 447-448): recipes are
processed sequentially, threading the filesystem; an uncaught exception in
one recipe terminates the process, abandoning the remaining recipes. -/
def runRecipes (ctx : Ctx) : Fs → List String →
    Except (Fatal × RunSt) (List RunSt)
  | _, [] => .ok []
  | fs, r :: rest =>
      match check_for_updates ctx fs r with
      | .error e => .error e
      | .ok st =>
          match runRecipes ctx st.fs rest with
          | .error e => .error e
          | .ok sts => .ok (st :: sts)

/-- Trace of a possibly-failed `check_for_updates` result. -/
def cfuTrace (r : Except (Fatal × RunSt) RunSt) : List Ev :=
  match r with
  | .ok st => st.trace
  | .error e => e.2.trace

/-! ## Self-update (`self_update`, soup.py lines 164-227) -/

/-- Semantic version triple (the script's own version and release tags are
plain `major.minor.patch` versions). -/
structure Version where
  major : Nat
  minor : Nat
  patch : Nat
deriving DecidableEq

/-- Lexicographic strict order on versions (`semver` comparison). -/
def Version.blt (x y : Version) : Bool :=
  decide (x.major < y.major) ||
  (decide (x.major = y.major) &&
    (decide (x.minor < y.minor) ||
      (decide (x.minor = y.minor) && decide (x.patch < y.patch))))

/-- `x <= y` on versions. -/
def Version.ble (x y : Version) : Bool :=
  Version.blt x y || decide (x = y)

/-- `SCRIPT_VERSION = semver.VersionInfo.parse("1.6.2")` (soup.py line 49). -/
def SCRIPT_VERSION : Version := ⟨1, 6, 2⟩

def GH_API_URL : String := "https://api.github.com"

def GH_REPO_BASE : String := GH_API_URL ++ "/repos/CreamySoup/soup"

/-- `GH_RELEASES` (soup.py line 89). -/
def GH_RELEASES : String := GH_REPO_BASE ++ "/releases/latest"

def Version.toStr (v : Version) : String :=
  toString v.major ++ "." ++ toString v.minor ++ "." ++ toString v.patch

/-- `release_commit_url` (soup.py line 186). -/
def releaseCommitUrl (v : Version) : String :=
  GH_REPO_BASE ++ "/git/ref/tags/" ++ Version.toStr v

/-- A GitHub API response: HTTP status plus the rate-limit headers when
all four are present (the script consults them only jointly). -/
structure GhResp where
  status : Nat
  rateRemaining : Option Int

/-- `verify_gh_api_req(req)` (soup.py lines 137-161):
`raise_for_status` raises `HTTPError` for any status of 400 or above; a
5xx-class code is logged and `False` returned, others re-raise.  With the
rate-limit headers present and no remaining quota, returns `False`. -/
def verify_gh_api_req (r : GhResp) : Except Fatal Bool :=
  if 400 ≤ r.status then
    if firstDigit r.status = 5 then .ok false
    else .error (.httpError r.status)
  else
    match r.rateRemaining with
    | some remaining => .ok (decide (0 < remaining))
    | none => .ok true

/-- Environment of one `self_update()` call: the two GitHub API responses
(latest release and the release tag's ref), the parsed release data, the
transport used for the archive download, the zip extraction function, the
`pipenv` subprocess exit status and the process identity. -/
structure SelfCtx where
  releasesResp : GhResp
  tagVer : Version
  zipballUrl : String
  refResp : GhResp
  refSha : String
  net : String → NetResp
  unzip : List Nat → String → Option (List Nat)
  pipenvExit : Nat
  pythonExe : String
  argv : List String

/-- Externally visible effects of one `self_update()` call. -/
structure SelfReport where
  downloaded : Option String
  reqsWritten : Option (List Nat)
  selfReplaced : Option (List Nat)
  restartArgs : Option (List String)
deriving DecidableEq

/-- The no-action report (no download, no file replaced, no restart). -/
def noSelfAction : SelfReport := ⟨none, none, none, none⟩

/-- `self_update()` (soup.py lines 164-227): verify the latest-release API
response; return if the running version is greater than or equal to the
latest tag; otherwise resolve the release commit sha (first 7 characters)
via a second API call, download the release zipball with a bare `urlopen`
call on the API-provided URL (note: no scheme check, and an `HTTPError`
here is uncaught), extract `requirements.txt` and `soup.py` from the
archive members named `CreamySoup-soup-<sha7>/...` (a missing member is an
uncaught `KeyError`), write the requirements, run `pipenv` (`check=True`),
overwrite the script's own source file, and restart the process via
`subprocess.check_call([sys.executable] + sys.argv)`. -/
def self_update (c : SelfCtx) : Except Fatal SelfReport :=
  match verify_gh_api_req c.releasesResp with
  | .error f => .error f
  | .ok false => .ok noSelfAction
  | .ok true =>
      if Version.ble c.tagVer SCRIPT_VERSION then .ok noSelfAction
      else
        match verify_gh_api_req c.refResp with
        | .error f => .error f
        | .ok false => .ok noSelfAction
        | .ok true =>
            let sha7 := strTake c.refSha 7
            let ballSoup := "CreamySoup-soup-" ++ sha7 ++ "/soup.py"
            let ballReqs := "CreamySoup-soup-" ++ sha7 ++ "/requirements.txt"
            match c.net c.zipballUrl with
            | .httpError code => .error (.httpError code)
            | .success zipBytes =>
                match c.unzip zipBytes ballReqs with
                | none => .error (.keyError ballReqs)
                | some reqs =>
                    if c.pipenvExit == 0 then
                      match c.unzip zipBytes ballSoup with
                      | none => .error (.keyError ballSoup)
                      | some soup =>
                          .ok ⟨some c.zipballUrl, some reqs, some soup,
                               some (c.pythonExe :: c.argv)⟩
                    else .error (.calledProcessError c.pipenvExit)

/-! ## Result projections -/

/-- The uncaught exception of a failed step, if any. -/
def errCode : Except (Fatal × RunSt) RunSt → Option Fatal
  | .error e => some e.1
  | .ok _ => none

/-- The `num_plugins_updated` counter of a step's final state. -/
def plugUpdOf : Except (Fatal × RunSt) RunSt → Nat
  | .ok st => st.nPlugUpdated
  | .error e => e.2.nPlugUpdated

/-- The artifact installations recorded in a trace. -/
def installsOf : List Ev → List (String × String × String)
  | [] => []
  | Ev.installEv nm p q :: rest => (nm, p, q) :: installsOf rest
  | _ :: rest => installsOf rest

/-- The uncaught exception of a whole recipe loop, if any. -/
def runErrCode : Except (Fatal × RunSt) (List RunSt) → Option Fatal
  | .error e => some e.1
  | .ok _ => none

/-- The observable events of a whole recipe loop (the partial trace up to
the fatal error, or the concatenated per-recipe traces). -/
def runTraceOf : Except (Fatal × RunSt) (List RunSt) → List Ev
  | .error e => e.2.trace
  | .ok sts => sts.flatMap RunSt.trace

/-! ## Specification-side definitions for entry-scoped processing (C7) -/

/-- The `procSrc` events of a trace: which `source_url` was handled with
which entry name. -/
def procSrcsOf : List Ev → List (Sect × String × String)
  | [] => []
  | Ev.procSrc s nm url :: rest => (s, nm, url) :: procSrcsOf rest
  | _ :: rest => procSrcsOf rest

/-- Written against the spec's words rather than the source: within a
single entry, each `source_url` is paired with the most recent `name` of
that same entry — the name accumulator starts empty at the start of every
entry ("the model for current entity under processing is entry-scoped,
not global"). -/
def specEntrySrcs (sect : Sect) : Option String → EntryKVs →
    List (Sect × String × String)
  | _, [] => []
  | cur, (k, v) :: rest =>
      if k == "name" then specEntrySrcs sect (some v) rest
      else if k == "source_url" then
        match cur with
        | some nm => (sect, nm, v) :: specEntrySrcs sect cur rest
        | none => specEntrySrcs sect cur rest
      else specEntrySrcs sect cur rest

def specEntriesSrcs (sect : Sect) (es : List (Option EntryKVs)) :
    List (Sect × String × String) :=
  (es.filterMap id).flatMap (specEntrySrcs sect none)

/-- All source-url processing steps of a recipe in manifest order,
includes first (matching the fixed section order), each paired with its
own entry's name. -/
def specRecipeSrcs (recipe : RecipeJson) : List (Sect × String × String) :=
  specEntriesSrcs .inc (recipe.includes.getD []) ++
  specEntriesSrcs .plug (recipe.plugins.getD [])

/-- An entry is well formed when every `source_url` key is preceded by
some `name` key of the same entry (`seen` records whether a name has been
seen so far). -/
def entryScopedAux : Bool → EntryKVs → Bool
  | _, [] => true
  | seen, (k, _) :: rest =>
      if k == "name" then entryScopedAux true rest
      else if k == "source_url" then seen && entryScopedAux seen rest
      else entryScopedAux seen rest

def entryScoped (e : EntryKVs) : Bool := entryScopedAux false e

/-- Every entry of the recipe is well formed. -/
def recipeScoped (recipe : RecipeJson) : Bool :=
  ((recipe.includes.getD []).filterMap id).all entryScoped &&
  ((recipe.plugins.getD []).filterMap id).all entryScoped

/-! ## Concrete inputs used by witnesses and counterexamples -/

/-- A network with one 5xx URL, one 4xx URL, and bytes elsewhere. -/
def net4 : String → NetResp := fun u =>
  if u == "https://a" then .httpError 503
  else if u == "https://b" then .httpError 404
  else .success [1, 2]

deriving instance DecidableEq for Except

/-- A degenerate configured codec whose encode loses information, used to
exhibit a reachable post-write verification failure. -/
def badCodec : Codec := ⟨fun _ => [], fun _ => some "x"⟩

/-- A minimal environment for single-step witnesses. -/
def ctxW : Ctx :=
  ⟨"g", utf8Codec, fun _ => .success [97], fun _ => none, true,
   fun _ => 0, fun _ => none, false⟩

/-- The empty starting state of a recipe run. -/
def st0 : RunSt := ⟨[], none, none, 0, 0, 0, 0, []⟩

/-- Self-update scenario D: remote latest version equals the running
version `1.6.2`. -/
def cD : SelfCtx :=
  ⟨⟨200, none⟩, ⟨1, 6, 2⟩, "https://api.github.com/zipball/v1.6.2",
   ⟨200, none⟩, "0123456789abc", fun _ => .success [5],
   fun _ _ => some [1], 0, "python3", ["./soup.py"]⟩

/-- Self-update scenario E: remote latest version `1.7.0` is strictly
greater than the running `1.6.2`. -/
def cE : SelfCtx :=
  ⟨⟨200, none⟩, ⟨1, 7, 0⟩, "https://api.github.com/zipball/v1.7.0",
   ⟨200, none⟩, "0123456789abc", fun _ => .success [5],
   fun _ m => if m == "CreamySoup-soup-0123456/soup.py" then some [7]
              else if m == "CreamySoup-soup-0123456/requirements.txt" then some [9]
              else none,
   0, "python3", ["./soup.py"]⟩

/-- A self-update environment in which the GitHub API reports a
non-encrypted `zipball_url`; everything else is healthy. -/
def cHttpZip : SelfCtx :=
  ⟨⟨200, none⟩, ⟨1, 7, 0⟩, "http://evil.example/soup.zip",
   ⟨200, none⟩, "0123456789abc", fun _ => .success [5],
   fun _ m => if m == "CreamySoup-soup-0123456/soup.py" then some [7]
              else if m == "CreamySoup-soup-0123456/requirements.txt" then some [9]
              else none,
   0, "python3", ["./soup.py"]⟩

/-- A recipe with two plugin entries, used to exhibit a compile failure
aborting the whole run. -/
def recipe1 : RecipeJson :=
  ⟨none,
   some [some [("name", "p1"), ("source_url", "https://p1")],
         some [("name", "p2"), ("source_url", "https://p2")]],
   false⟩

/-- Network for `recipe1`: the manifest at `https://r`, plugin sources at
`https://p1` and `https://p2`. -/
def net1 : String → NetResp := fun u =>
  if u == "https://r" then .success (utf8Enc "R1")
  else if u == "https://p1" then .success [65]
  else if u == "https://p2" then .success [66]
  else .success []

/-- Environment in which every plugin compile exits with status 1. -/
def ctx1 : Ctx :=
  ⟨"g", utf8Codec, net1,
   fun s => if s == "R1" then some recipe1 else none,
   true, fun _ => 1, fun _ => none, false⟩

/-- Entry-tracking state for the plugin `p1` of `recipe1`. -/
def cPlug9 : EntryCtx := ⟨"p1", scriptingLocalPath "g" ++ "/p1.sp", false⟩

/-- A mid-run state in which `p1`'s `name` key has been processed. -/
def st9 : RunSt := ⟨[], none, some cPlug9, 0, 0, 1, 0, []⟩

/-- A well-formed recipe with one include and one plugin entry. -/
def recipe7 : RecipeJson :=
  ⟨some [some [("name", "i1"), ("source_url", "https://i1")]],
   some [some [("name", "q1"), ("source_url", "https://q1")]],
   false⟩

/-- Network for `recipe7`. -/
def net7 : String → NetResp := fun u =>
  if u == "https://r7" then .success (utf8Enc "R7")
  else if u == "https://i1" then .success [72]
  else if u == "https://q1" then .success [73]
  else .success []

/-- Environment in which `recipe7` processes to completion. -/
def ctx7 : Ctx :=
  ⟨"g", utf8Codec, net7,
   fun s => if s == "R7" then some recipe7 else none,
   true, fun _ => 0, fun _ => some [9], false⟩

/-! ## Theorems

First the library of facts about the embedded definitions (hashing, the
first-digit classifier, fetching), then one theorem per specification
claim (with a witness wherever the theorem carries hypotheses). -/

/-- The SHA-256 model matches the standard test vector for `"abc"`. -/
theorem sha256_test_vector_abc :
    get_data_hash [97, 98, 99] =
      "ba7816bf8f01cfea414140de5dae2223b00361a396177a9cb410ff61f20015ad" := by
  decide

/-- The SHA-256 model matches the standard test vector for the empty
message. -/
theorem sha256_test_vector_empty :
    get_data_hash [] =
      "e3b0c44298fc1c149afbf4c8996fb92427ae41e4649b934ca495991b7852b855" := by
  decide

/-- A data hash is always 64 characters long. -/
theorem get_data_hash_length (data : List Nat) :
    (get_data_hash data).length = 64 := rfl

/-- A data hash is never the empty string (the source's
`assert len(res) > 0`). -/
theorem get_data_hash_ne_empty (data : List Nat) : get_data_hash data ≠ "" := by
  intro h
  have hl := get_data_hash_length data
  rw [h] at hl
  simp at hl

/-- `hexChar` of a nibble is a lowercase hex digit. -/
theorem hexChar_isHex (n : Nat) (h : n < 16) : isHexChar (hexChar n) = true := by
  interval_cases n <;> decide

/-- Every character of a data hash is a lowercase hex digit. -/
theorem get_data_hash_chars (data : List Nat) :
    ∀ ch ∈ (get_data_hash data).data, isHexChar ch = true := by
  intro ch hch
  have hch' : ch ∈ (shaDigestBytes (shaBlocks shaH0 (shaPad data))).flatMap
      (fun b => [hexChar (b / 16), hexChar (b % 16)]) := hch
  rw [List.mem_flatMap] at hch'
  obtain ⟨b, hb, hcb⟩ := hch'
  have hb256 : b < 256 := by
    simp only [shaDigestBytes] at hb
    rw [List.mem_flatMap] at hb
    obtain ⟨w, _, hw⟩ := hb
    simp only [List.mem_cons, List.not_mem_nil, or_false] at hw
    rcases hw with h | h | h | h <;> subst h <;>
      exact Nat.mod_lt _ (by norm_num)
  simp only [List.mem_cons, List.not_mem_nil, or_false] at hcb
  rcases hcb with h | h <;> subst h
  · exact hexChar_isHex _ (by omega)
  · exact hexChar_isHex _ (Nat.mod_lt _ (by norm_num))

/-- `get_file_hash` returns the decode-failure sentinel `""` exactly when
UTF-8 decoding of the file content fails. -/
theorem get_file_hash_empty_iff (codec : Codec) (disk : List Nat) :
    (get_file_hash codec disk = "" ↔ utf8Dec disk = none) := by
  unfold get_file_hash
  cases h : utf8Dec disk with
  | none => simp
  | some txt => simp [get_data_hash_ne_empty]

/-- In fuel-indexed form, a one-digit number is its own first digit. -/
theorem firstDigitAux_small (fuel n : Nat) (h : n < 10) :
    firstDigitAux fuel n = n := by
  cases fuel <;> simp [firstDigitAux, h]

/-- For a three-digit status code, `firstDigit` is the hundreds digit. -/
theorem firstDigit_three_digits (c : Nat) (h1 : 100 ≤ c) (h2 : c < 1000) :
    firstDigit c = c / 100 := by
  obtain ⟨k, rfl⟩ : ∃ k, c = k + 2 := ⟨c - 2, by omega⟩
  show firstDigitAux (k + 2) (k + 2) = (k + 2) / 100
  rw [firstDigitAux, if_neg (by omega), firstDigitAux, if_neg (by omega),
    firstDigitAux_small _ _ (by omega)]
  omega

/-- C10: for every byte buffer the data fingerprint is a 64-character
lowercase-hexadecimal string (a SHA-256 hex digest, hence non-empty),
while the file-hash function returns the empty string exactly when
decoding the file fails; consequently the decode-failure sentinel is never
equal to any remote content fingerprint, and the `hashes_match` comparison
deterministically comes out `false`, selecting the rewrite branch. -/
theorem c10_hash_sentinel_disjoint :
    (∀ data : List Nat, (get_data_hash data).length = 64 ∧
       ∀ ch ∈ (get_data_hash data).data, isHexChar ch = true) ∧
    (∀ (codec : Codec) (disk : List Nat),
       (get_file_hash codec disk = "" ↔ utf8Dec disk = none)) ∧
    (∀ (codec : Codec) (disk data : List Nat), utf8Dec disk = none →
       get_file_hash codec disk ≠ get_data_hash data) ∧
    (∀ (codec : Codec) (ex : Bool) (disk data : List Nat),
       utf8Dec disk = none →
       hashes_match codec ex (some disk) data = false) := by
  have hno : ∀ (codec : Codec) (disk data : List Nat), utf8Dec disk = none →
      get_file_hash codec disk ≠ get_data_hash data := by
    intro codec disk data hdec h
    have he : get_file_hash codec disk = "" :=
      (get_file_hash_empty_iff codec disk).mpr hdec
    exact get_data_hash_ne_empty data (h.symm.trans he)
  refine ⟨fun data => ⟨get_data_hash_length data, get_data_hash_chars data⟩,
    get_file_hash_empty_iff, hno, ?_⟩
  intro codec ex disk data hdec
  have he : get_file_hash codec disk = "" :=
    (get_file_hash_empty_iff codec disk).mpr hdec
  have hb : (get_file_hash codec disk == get_data_hash data) = false := by
    rw [beq_eq_false_iff_ne, he]
    exact fun h => get_data_hash_ne_empty data h.symm
  simp [hashes_match, hb]

/-- Witness for C10 at concrete inputs: the byte `255` is undecodable, so
its file hash is the sentinel and differs from the hash of the remote byte
buffer `[97]`; the first character of a concrete digest is hexadecimal. -/
theorem c10_witness :
    utf8Dec [255] = none ∧
    get_file_hash utf8Codec [255] ≠ get_data_hash [97] ∧
    hashes_match utf8Codec true (some [255]) [97] = false ∧
    isHexChar (Char.ofNat 99) = true :=
  ⟨by decide,
   c10_hash_sentinel_disjoint.2.2.1 utf8Codec [255] [97] (by decide),
   c10_hash_sentinel_disjoint.2.2.2 utf8Codec true [255] [97] (by decide),
   (c10_hash_sentinel_disjoint.1 [97]).2 (Char.ofNat 99) (by decide)⟩

/-- C4: for every URL fetch, an HTTP error with a 5xx status code makes
the fetch return `None` (after performing the network access), an HTTP
error of any other class (4xx-equivalent, codes 100-499) is re-raised as
fatal, and a successful response returns the raw bytes. -/
theorem c4_fetch_error_classes :
    (∀ (net : String → NetResp) url code, startsWithHttps url = true →
       net url = NetResp.httpError code → 500 ≤ code → code < 600 →
       get_url_contents net url = ([Ev.fetch url], Except.ok none)) ∧
    (∀ (net : String → NetResp) url code, startsWithHttps url = true →
       net url = NetResp.httpError code → 100 ≤ code → code < 500 →
       get_url_contents net url =
         ([Ev.fetch url], Except.error (Fatal.httpError code))) ∧
    (∀ (net : String → NetResp) url d, startsWithHttps url = true →
       net url = NetResp.success d →
       get_url_contents net url = ([Ev.fetch url], Except.ok (some d))) := by
  refine ⟨?_, ?_, ?_⟩
  · intro net url code hurl hnet h5 h6
    have hd : firstDigit code = 5 := by
      rw [firstDigit_three_digits code (by omega) (by omega)]; omega
    simp [get_url_contents, hurl, hnet, hd]
  · intro net url code hurl hnet h1 h4
    have hd : firstDigit code ≠ 5 := by
      rw [firstDigit_three_digits code (by omega) (by omega)]; omega
    simp [get_url_contents, hurl, hnet, hd]
  · intro net url d hurl hnet
    simp [get_url_contents, hurl, hnet]

/-- Witness for C4 on a concrete network: a 503 yields `None`, a 404 is
fatal, a success returns the bytes. -/
theorem c4_witness :
    get_url_contents net4 "https://a" = ([Ev.fetch "https://a"], Except.ok none) ∧
    get_url_contents net4 "https://b" =
      ([Ev.fetch "https://b"], Except.error (Fatal.httpError 404)) ∧
    get_url_contents net4 "https://c" =
      ([Ev.fetch "https://c"], Except.ok (some [1, 2])) :=
  ⟨c4_fetch_error_classes.1 net4 "https://a" 503 (by decide) (by decide)
     (by norm_num) (by norm_num),
   c4_fetch_error_classes.2.1 net4 "https://b" 404 (by decide) (by decide)
     (by norm_num) (by norm_num),
   c4_fetch_error_classes.2.2 net4 "https://c" [1, 2] (by decide) (by decide)⟩

/-- `installPhase` failures do not change the updated counters. -/
theorem installPhase_error_counters (ctx : Ctx) (c : EntryCtx) (st : RunSt)
    (f : Fatal) (st' : RunSt) (h : installPhase ctx c st = .error (f, st')) :
    st'.nIncUpdated = st.nIncUpdated ∧ st'.nPlugUpdated = st.nPlugUpdated := by
  simp only [installPhase] at h
  repeat' split at h
  all_goals
    first
      | (injection h with hfe
         injection hfe with h1 h2
         subst h2
         exact ⟨rfl, rfl⟩)
      | injection h

/-- Any `procKV` failure leaves both updated counters unchanged. -/
theorem procKV_error_counters (ctx : Ctx) (sect : Sect) (st : RunSt)
    (k v : String) (f : Fatal) (st' : RunSt)
    (h : procKV ctx sect st k v = .error (f, st')) :
    st'.nIncUpdated = st.nIncUpdated ∧ st'.nPlugUpdated = st.nPlugUpdated := by
  simp only [procKV] at h
  repeat' split at h
  all_goals first
    | (injection h with hfe
       injection hfe with h1 h2
       subst h2
       exact ⟨rfl, rfl⟩)
    | injection h
    | (have hip := installPhase_error_counters _ _ _ _ _ h
       simpa [addTrace] using hip)

/-- C2: when a sync performed a write and reported `updated`, re-reading
the written file and recomputing its fingerprint yields exactly the remote
content's fingerprint; when instead the recomputed post-write fingerprint
differs from the remote fingerprint, the sync result is the fatal
`verifyFailed` assertion rather than a silent success; and a failed entry
never increments the updated counters (they move only on the successful
verified path). -/
theorem c2_post_write_verification :
    (∀ (codec : Codec) (ex : Bool) (cur : Option (List Nat)) (remote d : List Nat),
       syncStep codec ex cur remote = (SyncRes.updated, some d) →
       get_file_hash codec d = get_data_hash remote) ∧
    (∀ (codec : Codec) (ex : Bool) (cur : Option (List Nat)) (remote : List Nat)
       (txt : String),
       hashes_match codec ex cur remote = false →
       codec.dec remote = some txt →
       get_file_hash codec (utf8Enc txt) ≠ get_data_hash remote →
       (syncStep codec ex cur remote).1 =
         SyncRes.verifyFailed (get_file_hash codec (utf8Enc txt))
           (get_data_hash remote)) ∧
    (∀ (ctx : Ctx) (sect : Sect) (st : RunSt) (k v : String) (f : Fatal)
       (st' : RunSt),
       procKV ctx sect st k v = .error (f, st') →
       st'.nIncUpdated = st.nIncUpdated ∧ st'.nPlugUpdated = st.nPlugUpdated) := by
  refine ⟨?_, ?_, procKV_error_counters⟩
  · intro codec ex cur remote d h
    simp only [syncStep] at h
    split at h
    · simp at h
    · split at h
      · simp at h
      · rename_i txt hdec
        split at h
        · rename_i hbeq
          simp only [Prod.mk.injEq, Option.some.injEq] at h
          obtain ⟨_, hd⟩ := h
          rw [← hd]
          exact eq_of_beq hbeq
        · simp at h
  · intro codec ex cur remote txt hm hdec hne
    have hbeq : (get_file_hash codec (utf8Enc txt) == get_data_hash remote) = false :=
      beq_eq_false_iff_ne.mpr hne
    simp [syncStep, hm, hdec, hbeq]

/-- Witness for C2: a concrete verified update (hash of the rewritten file
equals the remote hash), a concrete reachable verification failure under a
lossy configured codec, and a concrete failed entry with unchanged
counters. -/
theorem c2_witness :
    (syncStep utf8Codec false none [97] = (SyncRes.updated, some [97]) ∧
      get_file_hash utf8Codec [97] = get_data_hash [97]) ∧
    (hashes_match badCodec false none [97] = false ∧
      badCodec.dec [97] = some "x" ∧
      (syncStep badCodec false none [97]).1 =
        SyncRes.verifyFailed (get_file_hash badCodec (utf8Enc "x"))
          (get_data_hash [97])) ∧
    (procKV ctxW .inc st0 "source_url" "https://x" =
        .error (.nameError, addTrace st0 [.fetch "https://x"]) ∧
      (addTrace st0 [.fetch "https://x"]).nIncUpdated = st0.nIncUpdated ∧
      (addTrace st0 [.fetch "https://x"]).nPlugUpdated = st0.nPlugUpdated) := by
  refine ⟨⟨by decide, ?_⟩, ⟨by decide, rfl, ?_⟩, ⟨by decide, ?_⟩⟩
  · exact c2_post_write_verification.1 utf8Codec false none [97] [97] (by decide)
  · exact c2_post_write_verification.2.1 badCodec false none [97] "x"
      (by decide) rfl (by decide)
  · exact c2_post_write_verification.2.2 ctxW .inc st0 "source_url" "https://x"
      .nameError (addTrace st0 [.fetch "https://x"]) (by decide)

/-- C3: syncing with identical remote bytes is `updated` then `unchanged`:
with no usable baseline (or a baseline whose fingerprint differs, i.e.
`hashes_match` is false) the first pass writes and verifies, and the
second pass over the written file performs no write — the on-disk content
is identical after both passes.  The hypotheses state that the remote
bytes decode under the configured encoding and round-trip through the
UTF-8 file layer and the configured encoding. -/
theorem c3_sync_idempotent (codec : Codec) (ex : Bool)
    (cur : Option (List Nat)) (remote : List Nat) (txt : String)
    (hno : hashes_match codec ex cur remote = false)
    (hdec : codec.dec remote = some txt)
    (hroundtrip : utf8Dec (utf8Enc txt) = some txt)
    (henc : codec.enc txt = remote) :
    syncStep codec ex cur remote = (SyncRes.updated, some (utf8Enc txt)) ∧
    syncStep codec true (some (utf8Enc txt)) remote =
      (SyncRes.unchanged, some (utf8Enc txt)) := by
  have hfh : get_file_hash codec (utf8Enc txt) = get_data_hash remote := by
    simp [get_file_hash, hroundtrip, henc]
  constructor
  · simp [syncStep, hno, hdec, hfh]
  · have hm : hashes_match codec true (some (utf8Enc txt)) remote = true := by
      simp [hashes_match, hfh]
    simp [syncStep, hm]

/-- Witness for C3 at the spec's scenario-A/B content `"CONST"`. -/
theorem c3_witness :
    hashes_match utf8Codec false none [67, 79, 78, 83, 84] = false ∧
    utf8Codec.dec [67, 79, 78, 83, 84] = some "CONST" ∧
    syncStep utf8Codec false none [67, 79, 78, 83, 84] =
      (SyncRes.updated, some (utf8Enc "CONST")) ∧
    syncStep utf8Codec true (some (utf8Enc "CONST")) [67, 79, 78, 83, 84] =
      (SyncRes.unchanged, some (utf8Enc "CONST")) := by
  have h := c3_sync_idempotent utf8Codec false none [67, 79, 78, 83, 84] "CONST"
    (by decide) (by decide) (by decide) (by decide)
  exact ⟨by decide, by decide, h.1, h.2⟩

/-- C8: an undecodable local baseline does not abort the run — the decode
failure is absorbed into the sentinel hash `""`, the hash comparison
therefore fails, and a fresh write of the remote content is forced (under
the round-trip hypotheses the entry then completes as a verified
`updated`). -/
theorem c8_decode_failure_forces_rewrite (codec : Codec) (bad remote : List Nat)
    (txt : String)
    (hbad : utf8Dec bad = none)
    (hdec : codec.dec remote = some txt)
    (hroundtrip : utf8Dec (utf8Enc txt) = some txt)
    (henc : codec.enc txt = remote) :
    get_file_hash codec bad = "" ∧
    hashes_match codec true (some bad) remote = false ∧
    syncStep codec true (some bad) remote = (SyncRes.updated, some (utf8Enc txt)) := by
  have hempty : get_file_hash codec bad = "" :=
    (get_file_hash_empty_iff _ _).mpr hbad
  have hm : hashes_match codec true (some bad) remote = false := by
    have hb : (get_file_hash codec bad == get_data_hash remote) = false := by
      rw [beq_eq_false_iff_ne, hempty]
      exact fun hcontra => get_data_hash_ne_empty remote hcontra.symm
    simp [hashes_match, hb]
  have hfh : get_file_hash codec (utf8Enc txt) = get_data_hash remote := by
    simp [get_file_hash, hroundtrip, henc]
  refine ⟨hempty, hm, ?_⟩
  simp [syncStep, hm, hdec, hfh]

/-- Witness for C8: the local byte `255` is invalid UTF-8; the remote
content `[97]` is written and verified. -/
theorem c8_witness :
    utf8Dec [255] = none ∧
    get_file_hash utf8Codec [255] = "" ∧
    hashes_match utf8Codec true (some [255]) [97] = false ∧
    syncStep utf8Codec true (some [255]) [97] =
      (SyncRes.updated, some (utf8Enc "a")) := by
  have h := c8_decode_failure_forces_rewrite utf8Codec [255] [97] "a"
    (by decide) (by decide) (by decide) (by decide)
  exact ⟨by decide, h.1, h.2.1, h.2.2⟩

/-- Strict version order implies the converse non-strict order fails. -/
theorem Version.blt_asymm (x y : Version) (h : Version.blt x y = true) :
    Version.ble y x = false := by
  obtain ⟨a, b, c⟩ := x
  obtain ⟨d, e, f⟩ := y
  cases hble : Version.ble ⟨d, e, f⟩ ⟨a, b, c⟩ with
  | false => rfl
  | true =>
    exfalso
    simp only [Version.blt, Version.ble, Version.mk.injEq, Bool.or_eq_true,
      Bool.and_eq_true, decide_eq_true_eq] at h hble
    omega

/-- C5: the self-update check takes no update action — no download, no
file replacement, no restart — whenever the running version is greater
than or equal to the latest published version; and when the remote latest
version is strictly greater (and the two API calls verify), any
non-fatal outcome downloads the release archive, replaces the program's
own source file with the archive's `soup.py` member, and restarts the
process with `sys.executable` followed by the identical `sys.argv`. -/
theorem c5_self_update_version_gate :
    (∀ (c : SelfCtx) (r : SelfReport),
       Version.ble c.tagVer SCRIPT_VERSION = true →
       self_update c = .ok r → r = noSelfAction) ∧
    (∀ (c : SelfCtx) (r : SelfReport),
       Version.blt SCRIPT_VERSION c.tagVer = true →
       verify_gh_api_req c.releasesResp = .ok true →
       verify_gh_api_req c.refResp = .ok true →
       self_update c = .ok r →
       ∃ zipBytes reqs soup,
         c.net c.zipballUrl = NetResp.success zipBytes ∧
         c.unzip zipBytes
           ("CreamySoup-soup-" ++ strTake c.refSha 7 ++ "/requirements.txt") =
             some reqs ∧
         c.unzip zipBytes
           ("CreamySoup-soup-" ++ strTake c.refSha 7 ++ "/soup.py") = some soup ∧
         r = ⟨some c.zipballUrl, some reqs, some soup,
              some (c.pythonExe :: c.argv)⟩) := by
  constructor
  · intro c r hble h
    cases hv : verify_gh_api_req c.releasesResp with
    | error f => simp [self_update, hv] at h
    | ok b =>
      cases b
      · simp [self_update, hv] at h
        exact h.symm
      · simp [self_update, hv, hble] at h
        exact h.symm
  · intro c r hlt hv1 hv2 h
    have hble : Version.ble c.tagVer SCRIPT_VERSION = false :=
      Version.blt_asymm SCRIPT_VERSION c.tagVer hlt
    cases hnet : c.net c.zipballUrl with
    | httpError code => simp [self_update, hv1, hble, hv2, hnet] at h
    | success zipBytes =>
      cases hu1 : c.unzip zipBytes
          ("CreamySoup-soup-" ++ strTake c.refSha 7 ++ "/requirements.txt") with
      | none => simp [self_update, hv1, hble, hv2, hnet, hu1] at h
      | some reqs =>
        cases hpip : (c.pipenvExit == 0) with
        | false => simp [self_update, hv1, hble, hv2, hnet, hu1, hpip] at h
        | true =>
          cases hu2 : c.unzip zipBytes
              ("CreamySoup-soup-" ++ strTake c.refSha 7 ++ "/soup.py") with
          | none => simp [self_update, hv1, hble, hv2, hnet, hu1, hpip, hu2] at h
          | some soup =>
            simp [self_update, hv1, hble, hv2, hnet, hu1, hpip, hu2] at h
            exact ⟨zipBytes, reqs, soup, rfl, hu1, hu2, by rw [← h]⟩

/-- Witness for C5: scenario D (remote `1.6.2` equals running `1.6.2`,
no action) and scenario E (remote `1.7.0`, archive downloaded, own source
replaced by the archive's `soup.py` member, restart with identical
arguments). -/
theorem c5_witness :
    (Version.ble cD.tagVer SCRIPT_VERSION = true ∧
      self_update cD = .ok noSelfAction ∧ noSelfAction = noSelfAction) ∧
    (Version.blt SCRIPT_VERSION cE.tagVer = true ∧
      self_update cE = .ok ⟨some cE.zipballUrl, some [9], some [7],
        some ("python3" :: ["./soup.py"])⟩ ∧
      ∃ zipBytes reqs soup,
        cE.net cE.zipballUrl = NetResp.success zipBytes ∧
        cE.unzip zipBytes
          ("CreamySoup-soup-" ++ strTake cE.refSha 7 ++ "/requirements.txt") =
            some reqs ∧
        cE.unzip zipBytes
          ("CreamySoup-soup-" ++ strTake cE.refSha 7 ++ "/soup.py") = some soup ∧
        (⟨some cE.zipballUrl, some [9], some [7],
          some ("python3" :: ["./soup.py"])⟩ : SelfReport) =
          ⟨some cE.zipballUrl, some reqs, some soup,
           some (cE.pythonExe :: cE.argv)⟩) :=
  ⟨⟨by decide, by decide,
     c5_self_update_version_gate.1 cD noSelfAction (by decide) (by decide)⟩,
   ⟨by decide, by decide,
     c5_self_update_version_gate.2 cE
       ⟨some cE.zipballUrl, some [9], some [7],
        some ("python3" :: ["./soup.py"])⟩
       (by decide) (by decide) (by decide) (by decide)⟩⟩

/-- Trace is unchanged by the processed-counter bump. -/
theorem bumpProcessed_trace (sect : Sect) (st : RunSt) :
    (bumpProcessed sect st).trace = st.trace := by cases sect <;> rfl

/-- Trace is unchanged by the updated-counter bump. -/
theorem bumpUpdated_trace (sect : Sect) (st : RunSt) :
    (bumpUpdated sect st).trace = st.trace := by cases sect <;> rfl

/-- Trace is unchanged by setting the entry-tracking variables. -/
theorem setCtx_trace (sect : Sect) (st : RunSt) (c : EntryCtx) :
    (setCtx sect st c).trace = st.trace := by cases sect <;> rfl

/-- The only event `get_url_contents` can record is a fetch of its own
URL, and only when the URL passed the https assertion. -/
theorem get_url_contents_events (net : String → NetResp) (url : String)
    (ev : Ev) (h : ev ∈ (get_url_contents net url).1) :
    ev = Ev.fetch url ∧ startsWithHttps url = true := by
  cases hs : startsWithHttps url with
  | true =>
    simp only [get_url_contents, hs, if_true, List.mem_singleton] at h
    exact ⟨h, rfl⟩
  | false =>
    simp [get_url_contents, hs] at h

/-- `installPhase` records no fetch events. -/
theorem installPhase_fetches (ctx : Ctx) (c : EntryCtx) (st : RunSt)
    (u : String) (h : Ev.fetch u ∈ cfuTrace (installPhase ctx c st)) :
    Ev.fetch u ∈ st.trace := by
  simp only [installPhase] at h
  repeat' split at h
  all_goals simpa [cfuTrace, addTrace, bumpUpdated_trace] using h

/-- Every fetch event recorded by a `procKV` step is of an https URL (or
was already in the incoming trace). -/
theorem procKV_fetches (ctx : Ctx) (sect : Sect) (st : RunSt) (k v u : String)
    (h : Ev.fetch u ∈ cfuTrace (procKV ctx sect st k v)) :
    Ev.fetch u ∈ st.trace ∨ startsWithHttps u = true := by
  simp only [procKV] at h
  repeat' split at h
  all_goals try (replace h := installPhase_fetches _ _ _ _ h)
  all_goals
    simp [cfuTrace, addTrace, bumpProcessed_trace, setCtx_trace,
      bumpUpdated_trace, List.mem_append] at h
  all_goals
    first
      | exact Or.inl h
      | (rcases h with h | h
         · exact Or.inl h
         · obtain ⟨h1, h2⟩ := get_url_contents_events ctx.net v (Ev.fetch u) h
           injection h1 with h1
           subst h1
           exact Or.inr h2)

/-- Fetch events recorded while walking an entry's key-value list are of
https URLs. -/
theorem runKVs_fetches (ctx : Ctx) (sect : Sect) :
    ∀ (kvs : EntryKVs) (st : RunSt) (u : String),
    Ev.fetch u ∈ cfuTrace (runKVs ctx sect st kvs) →
    Ev.fetch u ∈ st.trace ∨ startsWithHttps u = true := by
  intro kvs
  induction kvs with
  | nil =>
    intro st u h
    exact Or.inl (by simpa [runKVs, cfuTrace] using h)
  | cons kv rest ih =>
    intro st u h
    obtain ⟨k, v⟩ := kv
    simp only [runKVs] at h
    cases hp : procKV ctx sect st k v with
    | error e =>
      rw [hp] at h
      exact procKV_fetches ctx sect st k v u (by rw [hp]; exact h)
    | ok st1 =>
      rw [hp] at h
      rcases ih st1 u h with h1 | h1
      · exact procKV_fetches ctx sect st k v u (by rw [hp]; exact h1)
      · exact Or.inr h1

/-- Fetch events recorded by one entry are of https URLs. -/
theorem procEntry_fetches (ctx : Ctx) (sect : Sect) (st : RunSt)
    (e : Option EntryKVs) (u : String)
    (h : Ev.fetch u ∈ cfuTrace (procEntry ctx sect st e)) :
    Ev.fetch u ∈ st.trace ∨ startsWithHttps u = true := by
  cases e with
  | none => exact Or.inl (by simpa [procEntry, cfuTrace] using h)
  | some kvs => exact runKVs_fetches ctx sect kvs st u h

/-- Fetch events recorded by a list of entries are of https URLs. -/
theorem procEntries_fetches (ctx : Ctx) (sect : Sect) :
    ∀ (es : List (Option EntryKVs)) (st : RunSt) (u : String),
    Ev.fetch u ∈ cfuTrace (procEntries ctx sect st es) →
    Ev.fetch u ∈ st.trace ∨ startsWithHttps u = true := by
  intro es
  induction es with
  | nil =>
    intro st u h
    exact Or.inl (by simpa [procEntries, cfuTrace] using h)
  | cons e rest ih =>
    intro st u h
    simp only [procEntries] at h
    cases hp : procEntry ctx sect st e with
    | error err =>
      rw [hp] at h
      exact procEntry_fetches ctx sect st e u (by rw [hp]; exact h)
    | ok st1 =>
      rw [hp] at h
      rcases ih st1 u h with h1 | h1
      · exact procEntry_fetches ctx sect st e u (by rw [hp]; exact h1)
      · exact Or.inr h1

/-- Fetch events recorded by a section are of https URLs. -/
theorem procSection_fetches (ctx : Ctx) (sect : Sect) (st : RunSt)
    (entries : Option (List (Option EntryKVs))) (u : String)
    (h : Ev.fetch u ∈ cfuTrace (procSection ctx sect st entries)) :
    Ev.fetch u ∈ st.trace ∨ startsWithHttps u = true := by
  cases entries with
  | none => exact Or.inl (by simpa [procSection, cfuTrace] using h)
  | some es => exact procEntries_fetches ctx sect es st u h

/-- Fetch events recorded by the section walk are of https URLs. -/
theorem procRecipe_fetches (ctx : Ctx) (st : RunSt) (recipe : RecipeJson)
    (u : String) (h : Ev.fetch u ∈ cfuTrace (procRecipe ctx st recipe)) :
    Ev.fetch u ∈ st.trace ∨ startsWithHttps u = true := by
  simp only [procRecipe] at h
  cases h1 : procSection ctx .inc st recipe.includes with
  | error e =>
    simp only [h1] at h
    exact procSection_fetches ctx .inc st recipe.includes u (by rw [h1]; exact h)
  | ok st2 =>
    simp only [h1] at h
    cases h2 : procSection ctx .plug st2 recipe.plugins with
    | error e =>
      simp only [h2] at h
      rcases procSection_fetches ctx .plug st2 recipe.plugins u
          (by rw [h2]; exact h) with h3 | h3
      · exact procSection_fetches ctx .inc st recipe.includes u (by rw [h1]; exact h3)
      · exact Or.inr h3
    | ok st3 =>
      simp only [h2] at h
      have h4 : Ev.fetch u ∈ st3.trace := by
        cases hup : recipe.updater with
        | true => simpa [cfuTrace, hup, addTrace] using h
        | false => simpa [cfuTrace, hup] using h
      rcases procSection_fetches ctx .plug st2 recipe.plugins u
          (by rw [h2]; exact h4) with h3 | h3
      · exact procSection_fetches ctx .inc st recipe.includes u (by rw [h1]; exact h3)
      · exact Or.inr h3

/-- Every fetch event of a whole `check_for_updates` run is of an https
URL: the recipe manifest and every include/plugin source fetch passed the
https assertion before any network access. -/
theorem check_for_updates_fetches (ctx : Ctx) (fs0 : Fs) (recipeUrl u : String)
    (h : Ev.fetch u ∈ cfuTrace (check_for_updates ctx fs0 recipeUrl)) :
    startsWithHttps u = true := by
  have hst1 : Ev.fetch u ∈
      (addTrace (⟨fs0, none, none, 0, 0, 0, 0, []⟩ : RunSt)
        (get_url_contents ctx.net recipeUrl).1).trace →
      startsWithHttps u = true := by
    intro hm
    simp only [addTrace, List.nil_append] at hm
    obtain ⟨h1, h2⟩ := get_url_contents_events ctx.net recipeUrl (Ev.fetch u) hm
    injection h1 with h1
    subst h1
    exact h2
  simp only [check_for_updates] at h
  cases hf : (get_url_contents ctx.net recipeUrl).2 with
  | error f =>
    simp only [hf] at h
    exact hst1 (by simpa [cfuTrace] using h)
  | ok ob =>
    simp only [hf] at h
    cases ob with
    | none => exact hst1 (by simpa [cfuTrace] using h)
    | some bytes =>
      cases hdec : ctx.codec.dec bytes with
      | none =>
        simp only [hdec] at h
        exact hst1 (by simpa [cfuTrace] using h)
      | some s =>
        simp only [hdec] at h
        cases hjson : ctx.parseJson s with
        | none =>
          simp only [hjson] at h
          exact hst1 (by simpa [cfuTrace] using h)
        | some recipe =>
          simp only [hjson] at h
          rcases procRecipe_fetches ctx _ recipe u h with h1 | h1
          · exact hst1 h1
          · exact h1

/-- C6 (amended): the URLs fetched through `get_url_contents` — the recipe
manifest and every include/plugin source — are checked to use the https
scheme before any network access (a non-https URL is a fatal
`AssertionError` and no fetch happens), and the GitHub release-API URLs
are https by construction; the release-archive download, however, is
performed by a bare `urlopen` on the API-provided `zipball_url` with no
scheme check (see the counterexample). -/
theorem c6_amended_transport_checks :
    (∀ (net : String → NetResp) (url : String), startsWithHttps url = false →
       get_url_contents net url = ([], .error (.assertNotHttps url))) ∧
    (∀ (ctx : Ctx) (fs0 : Fs) (recipeUrl u : String),
       Ev.fetch u ∈ cfuTrace (check_for_updates ctx fs0 recipeUrl) →
       startsWithHttps u = true) ∧
    startsWithHttps GH_RELEASES = true ∧
    (∀ v : Version, startsWithHttps (releaseCommitUrl v) = true) := by
  refine ⟨?_, check_for_updates_fetches, by decide, fun v => rfl⟩
  intro net url h
  simp [get_url_contents, h]

/-- Counterexample to C6 as stated: with a healthy environment whose
API-provided `zipball_url` is a plain-http URL, `self_update` downloads
the archive from that URL and completes the update with no fatal
contract failure — the claim that every fetched URL (including the
archive download) is checked for an encrypted scheme is false. -/
theorem c6_counterexample :
    startsWithHttps cHttpZip.zipballUrl = false ∧
    self_update cHttpZip =
      .ok ⟨some "http://evil.example/soup.zip", some [9], some [7],
           some ("python3" :: ["./soup.py"])⟩ :=
  ⟨by decide, by decide⟩

/-- Witness for the amended C6: a non-https URL is rejected by the
assertion with no fetch event, and a concrete run's fetch event is of an
https URL. -/
theorem c6_witness :
    get_url_contents net4 "http://a" = ([], .error (.assertNotHttps "http://a")) ∧
    startsWithHttps "https://r" = true :=
  ⟨c6_amended_transport_checks.1 net4 "http://a" (by decide),
   c6_amended_transport_checks.2.1 ctxW [] "https://r" "https://r" (by decide)⟩

/-- `installsOf` distributes over trace concatenation. -/
theorem installsOf_append (a b : List Ev) :
    installsOf (a ++ b) = installsOf a ++ installsOf b := by
  induction a with
  | nil => rfl
  | cons ev rest ih => cases ev <;> simp [installsOf, ih]

/-- A plugin entry whose fetched source was updated and verified but whose
compile exits non-zero ends in an uncaught `CalledProcessError`; the
updated counter is untouched and no installation is recorded. -/
theorem procKV_compile_fail (ctx : Ctx) (st : RunSt) (v : String)
    (c : EntryCtx) (remote : List Nat)
    (hctx : st.plugCtx = some c)
    (hhttps : startsWithHttps v = true)
    (hnet : ctx.net v = NetResp.success remote)
    (hsync : (syncStep ctx.codec c.existsLocally (fsGet st.fs c.path) remote).1 =
      SyncRes.updated)
    (hcomp : ctx.compilerExists = true)
    (hex : (ctx.compileExit c.path == 0) = false) :
    errCode (procKV ctx .plug st "source_url" v) =
      some (.calledProcessError (ctx.compileExit c.path)) ∧
    plugUpdOf (procKV ctx .plug st "source_url" v) = st.nPlugUpdated ∧
    installsOf (cfuTrace (procKV ctx .plug st "source_url" v)) =
      installsOf st.trace := by
  refine ⟨?_, ?_, ?_⟩ <;>
    simp [procKV, installPhase, get_url_contents, hhttps, hnet, getCtx, hctx,
      addTrace, hsync, hcomp, hex, errCode, plugUpdOf, cfuTrace, installsOf,
      installsOf_append]

/-- C9: for every plugin entry whose compile fails (non-zero compiler exit
status), the `plugins_updated` counter is not incremented and the
artifact-install step is never invoked for that entry — the step ends in
the uncaught `CalledProcessError` with the counter unchanged and no new
installation in the trace. -/
theorem c9_compile_failure_no_install (ctx : Ctx) (st : RunSt) (v : String)
    (c : EntryCtx) (remote : List Nat)
    (hctx : st.plugCtx = some c)
    (hhttps : startsWithHttps v = true)
    (hnet : ctx.net v = NetResp.success remote)
    (hsync : (syncStep ctx.codec c.existsLocally (fsGet st.fs c.path) remote).1 =
      SyncRes.updated)
    (hcomp : ctx.compilerExists = true)
    (hex : (ctx.compileExit c.path == 0) = false) :
    errCode (procKV ctx .plug st "source_url" v) =
      some (.calledProcessError (ctx.compileExit c.path)) ∧
    plugUpdOf (procKV ctx .plug st "source_url" v) = st.nPlugUpdated ∧
    installsOf (cfuTrace (procKV ctx .plug st "source_url" v)) =
      installsOf st.trace :=
  procKV_compile_fail ctx st v c remote hctx hhttps hnet hsync hcomp hex

/-- Witness for C9 at the concrete failing plugin `p1`. -/
theorem c9_witness :
    errCode (procKV ctx1 .plug st9 "source_url" "https://p1") =
      some (.calledProcessError 1) ∧
    plugUpdOf (procKV ctx1 .plug st9 "source_url" "https://p1") = 0 ∧
    installsOf (cfuTrace (procKV ctx1 .plug st9 "source_url" "https://p1")) = [] := by
  have h := c9_compile_failure_no_install ctx1 st9 "https://p1" cPlug9 [65]
    (by decide) (by decide) (by decide) (by decide) (by decide) (by decide)
  exact ⟨h.1, h.2.1, h.2.2⟩

set_option maxRecDepth 4000 in
/-- Counterexample to C1 as stated: in a concrete run whose first plugin
entry compiles with exit status 1, the run terminates with the uncaught
`CalledProcessError` — the second plugin entry of the same recipe and the
second recipe are never processed (the only source-url processing event is
for `p1`), so the failure is pipeline-fatal rather than entry-local. -/
theorem c1_counterexample :
    runErrCode (runRecipes ctx1 [] ["https://r", "https://r2"]) =
      some (.calledProcessError 1) ∧
    procSrcsOf (runTraceOf (runRecipes ctx1 [] ["https://r", "https://r2"])) =
      [(Sect.plug, "p1", "https://p1")] :=
  ⟨by decide, by decide⟩

/-- C1 (amended): a non-zero compiler exit status for a plugin entry
raises an uncaught `CalledProcessError` that is pipeline-fatal: it aborts
the entry, the walk of the remaining keys and entries of the recipe, and
the remaining recipes of the run. -/
theorem c1_amended_compile_failure_fatal :
    (∀ (ctx : Ctx) (st : RunSt) (v : String) (c : EntryCtx) (remote : List Nat),
       st.plugCtx = some c → startsWithHttps v = true →
       ctx.net v = NetResp.success remote →
       (syncStep ctx.codec c.existsLocally (fsGet st.fs c.path) remote).1 =
         SyncRes.updated →
       ctx.compilerExists = true → (ctx.compileExit c.path == 0) = false →
       errCode (procKV ctx .plug st "source_url" v) =
         some (.calledProcessError (ctx.compileExit c.path))) ∧
    (∀ (ctx : Ctx) (sect : Sect) (st : RunSt) (k v : String) (rest : EntryKVs)
       (e : Fatal × RunSt), procKV ctx sect st k v = .error e →
       runKVs ctx sect st ((k, v) :: rest) = .error e) ∧
    (∀ (ctx : Ctx) (sect : Sect) (st : RunSt) (e : Option EntryKVs)
       (rest : List (Option EntryKVs)) (err : Fatal × RunSt),
       procEntry ctx sect st e = .error err →
       procEntries ctx sect st (e :: rest) = .error err) ∧
    (∀ (ctx : Ctx) (fs : Fs) (r : String) (rest : List String)
       (err : Fatal × RunSt), check_for_updates ctx fs r = .error err →
       runRecipes ctx fs (r :: rest) = .error err) := by
  refine ⟨?_, ?_, ?_, ?_⟩
  · intro ctx st v c remote hctx hhttps hnet hsync hcomp hex
    exact (procKV_compile_fail ctx st v c remote hctx hhttps hnet hsync hcomp hex).1
  · intro ctx sect st k v rest e hp
    simp [runKVs, hp]
  · intro ctx sect st e rest err hp
    simp [procEntries, hp]
  · intro ctx fs r rest err hp
    simp [runRecipes, hp]

/-- Witness for the amended C1: the concrete compile failure of `p1`
aborts the key walk, the entry list, and the recipe list. -/
theorem c1_amended_witness :
    errCode (procKV ctx1 .plug st9 "source_url" "https://p1") =
      some (.calledProcessError 1) ∧
    errCode (runKVs ctx1 .plug st9
      [("source_url", "https://p1"), ("name", "p2")]) =
      some (.calledProcessError 1) ∧
    runErrCode (runRecipes ctx1 [] ["https://r", "https://r2"]) =
      some (.calledProcessError 1) := by
  have h := c1_amended_compile_failure_fatal
  have ha := h.1 ctx1 st9 "https://p1" cPlug9 [65]
    (by decide) (by decide) (by decide) (by decide) (by decide) (by decide)
  refine ⟨ha, ?_, ?_⟩
  · cases hp : procKV ctx1 .plug st9 "source_url" "https://p1" with
    | ok st => rw [hp] at ha; simp [errCode] at ha
    | error e =>
      rw [hp] at ha
      rw [h.2.1 ctx1 .plug st9 "source_url" "https://p1" [("name", "p2")] e hp]
      exact ha
  · have hcfuCode : errCode (check_for_updates ctx1 [] "https://r") =
        some (.calledProcessError 1) := by decide
    cases hcf : check_for_updates ctx1 [] "https://r" with
    | ok st => rw [hcf] at hcfuCode; simp [errCode] at hcfuCode
    | error e =>
      rw [hcf] at hcfuCode
      rw [h.2.2.2 ctx1 [] "https://r" ["https://r2"] e hcf]
      exact hcfuCode

/-- `procSrcsOf` distributes over trace concatenation. -/
theorem procSrcsOf_append (a b : List Ev) :
    procSrcsOf (a ++ b) = procSrcsOf a ++ procSrcsOf b := by
  induction a with
  | nil => rfl
  | cons ev rest ih => cases ev <;> simp [procSrcsOf, ih]

/-- `get_url_contents` records no source-url processing events. -/
theorem procSrcsOf_get_url (net : String → NetResp) (url : String) :
    procSrcsOf (get_url_contents net url).1 = [] := by
  cases hs : startsWithHttps url <;> simp [get_url_contents, hs, procSrcsOf]

/-- The trace of the fresh tracking state set by a `name` key. -/
theorem trace_bump_set (sect : Sect) (st : RunSt) (c : EntryCtx) :
    (bumpProcessed sect (setCtx sect st c)).trace = st.trace := by
  cases sect <;> rfl

/-- The tracking state set by a `name` key is visible to its section. -/
theorem getCtx_bump_set (sect : Sect) (st : RunSt) (c : EntryCtx) :
    getCtx sect (bumpProcessed sect (setCtx sect st c)) = some c := by
  cases sect <;> rfl

/-- Adding trace events does not change the tracking state. -/
theorem getCtx_addTrace (sect : Sect) (st : RunSt) (evs : List Ev) :
    getCtx sect (addTrace st evs) = getCtx sect st := by
  cases sect <;> rfl

/-- A successful `installPhase` records only compile/install events and
leaves both tracking states unchanged. -/
theorem installPhase_ok_shape (ctx : Ctx) (c : EntryCtx) (st st' : RunSt)
    (h : installPhase ctx c st = .ok st') :
    procSrcsOf st'.trace = procSrcsOf st.trace ∧
    st'.incCtx = st.incCtx ∧ st'.plugCtx = st.plugCtx := by
  simp only [installPhase] at h
  repeat' split at h
  all_goals first
    | (injection h with h1
       subst h1
       refine ⟨?_, rfl, rfl⟩
       simp [bumpUpdated, addTrace, procSrcsOf_append, procSrcsOf])
    | injection h

/-- Characterization of successful `procKV` steps: a `name` key sets the
tracking state and records no processing event; a `source_url` key records
exactly one source-processing event carrying the current tracking name and
leaves the tracking state unchanged; any other key changes nothing. -/
theorem procKV_ok_cases (ctx : Ctx) (sect : Sect) (st : RunSt) (k v : String)
    (st1 : RunSt) (h : procKV ctx sect st k v = .ok st1) :
    ((k == "name") = true ∧
      procSrcsOf st1.trace = procSrcsOf st.trace ∧
      getCtx sect st1 = some ⟨v, entryLocalPath ctx sect v,
        (fsGet st.fs (entryLocalPath ctx sect v)).isSome⟩) ∨
    ((k == "name") = false ∧ (k == "source_url") = true ∧
      ∃ c, getCtx sect st = some c ∧
        procSrcsOf st1.trace = procSrcsOf st.trace ++ [(sect, c.nm, v)] ∧
        getCtx sect st1 = getCtx sect st) ∨
    ((k == "name") = false ∧ (k == "source_url") = false ∧ st1 = st) := by
  by_cases hk : (k == "name") = true
  · left
    unfold procKV at h
    rw [if_pos hk] at h
    injection h with h1
    subst h1
    refine ⟨hk, ?_, getCtx_bump_set sect st _⟩
    rw [trace_bump_set]
  · have hkf : (k == "name") = false := by
      revert hk; cases (k == "name") <;> simp
    by_cases hs : (k == "source_url") = true
    · right; left
      unfold procKV at h
      rw [if_neg hk, if_pos hs] at h
      simp only [] at h
      cases hf : (get_url_contents ctx.net v).2 with
      | error f =>
        simp only [hf] at h
        exact absurd h (by simp)
      | ok fetched =>
        simp only [hf] at h
        cases hc : getCtx sect (addTrace st (get_url_contents ctx.net v).1) with
        | none =>
          simp only [hc] at h
          exact absurd h (by simp)
        | some c =>
          simp only [hc] at h
          have hc0 : getCtx sect st = some c := by
            rwa [getCtx_addTrace] at hc
          refine ⟨hkf, hs, c, hc0, ?_⟩
          cases fetched with
          | none =>
            injection h with h1
            subst h1
            constructor
            · simp [addTrace, procSrcsOf_append, procSrcsOf, procSrcsOf_get_url]
            · cases sect <;> rfl
          | some remote =>
            cases hsy : (syncStep ctx.codec c.existsLocally
                (fsGet (addTrace (addTrace st (get_url_contents ctx.net v).1)
                  [Ev.procSrc sect c.nm v]).fs c.path) remote).1 with
            | unchanged =>
              simp only [hsy] at h
              injection h with h1
              subst h1
              constructor
              · simp [addTrace, procSrcsOf_append, procSrcsOf, procSrcsOf_get_url]
              · cases sect <;> rfl
            | decodeFatal =>
              simp only [hsy] at h
              exact absurd h (by simp)
            | verifyFailed got expected =>
              simp only [hsy] at h
              exact absurd h (by simp)
            | updated =>
              simp only [hsy] at h
              cases sect with
              | inc =>
                injection h with h1
                subst h1
                constructor
                · rw [bumpUpdated_trace]
                  simp [addTrace, procSrcsOf_append, procSrcsOf, procSrcsOf_get_url]
                · rfl
              | plug =>
                obtain ⟨htr, hic, hpc⟩ := installPhase_ok_shape ctx c _ st1 h
                constructor
                · rw [htr]
                  simp [addTrace, procSrcsOf_append, procSrcsOf, procSrcsOf_get_url]
                · simp only [getCtx, hpc]
                  rfl
    · right; right
      have hsf : (k == "source_url") = false := by
        revert hs; cases (k == "source_url") <;> simp
      unfold procKV at h
      rw [if_neg hk, if_neg hs] at h
      injection h with h1
      exact ⟨hkf, hsf, h1.symm⟩

/-- Walking one entry's keys: when every `source_url` of the entry is
preceded by a `name` (relative to `cur`, the name currently in scope), the
source-processing events recorded are exactly the spec-side plan
`specEntrySrcs` — each `source_url` paired with the most recent name. -/
theorem runKVs_spec (ctx : Ctx) (sect : Sect) :
    ∀ (kvs : EntryKVs) (st : RunSt) (cur : Option String) (st' : RunSt),
    entryScopedAux cur.isSome kvs = true →
    (∀ nm, cur = some nm → ∃ c, getCtx sect st = some c ∧ c.nm = nm) →
    runKVs ctx sect st kvs = .ok st' →
    procSrcsOf st'.trace = procSrcsOf st.trace ++ specEntrySrcs sect cur kvs := by
  intro kvs
  induction kvs with
  | nil =>
    intro st cur st' hsc hinv hrun
    simp only [runKVs] at hrun
    injection hrun with h1
    subst h1
    simp [specEntrySrcs]
  | cons kv rest ih =>
    intro st cur st' hsc hinv hrun
    obtain ⟨k, v⟩ := kv
    simp only [runKVs] at hrun
    cases hp : procKV ctx sect st k v with
    | error e =>
      simp only [hp] at hrun
      exact absurd hrun (by simp)
    | ok stm =>
      simp only [hp] at hrun
      rcases procKV_ok_cases ctx sect st k v stm hp with
        ⟨hk, htr, hctx⟩ | ⟨hk, hs, c, hc0, htr, hctx⟩ | ⟨hk, hs, hst⟩
      · have hsc' : entryScopedAux true rest = true := by
          unfold entryScopedAux at hsc
          rwa [if_pos hk] at hsc
        have hinv' : ∀ nm, (some v : Option String) = some nm →
            ∃ c, getCtx sect stm = some c ∧ c.nm = nm := by
          intro nm hnm
          injection hnm with hnm
          subst hnm
          exact ⟨_, hctx, rfl⟩
        have hres := ih stm (some v) st' (by simpa using hsc') hinv' hrun
        rw [hres, htr]
        simp only [specEntrySrcs]
        rw [if_pos hk]
      · have hkn : ¬ ((k == "name") = true) := by simp [hk]
        have hcur : cur.isSome = true ∧ entryScopedAux cur.isSome rest = true := by
          unfold entryScopedAux at hsc
          rw [if_neg hkn, if_pos hs] at hsc
          simpa [Bool.and_eq_true] using hsc
        obtain ⟨nm, hnm⟩ := Option.isSome_iff_exists.mp hcur.1
        obtain ⟨c', hc', hcnm⟩ := hinv nm hnm
        have hcc : c = c' := by
          rw [hc0] at hc'
          injection hc'
        subst hcc
        have hinv' : ∀ nm', cur = some nm' →
            ∃ c0, getCtx sect stm = some c0 ∧ c0.nm = nm' := by
          intro nm' hnm'
          obtain ⟨c0, hcc0, hcn0⟩ := hinv nm' hnm'
          exact ⟨c0, by rw [hctx]; exact hcc0, hcn0⟩
        have hres := ih stm cur st' hcur.2 hinv' hrun
        rw [hres, htr]
        simp only [specEntrySrcs]
        rw [if_neg hkn, if_pos hs, hnm]
        simp [hcnm, List.append_assoc]
      · have hkn : ¬ ((k == "name") = true) := by simp [hk]
        have hsn : ¬ ((k == "source_url") = true) := by simp [hs]
        subst hst
        have hsc' : entryScopedAux cur.isSome rest = true := by
          unfold entryScopedAux at hsc
          rwa [if_neg hkn, if_neg hsn] at hsc
        have hres := ih stm cur st' hsc' hinv hrun
        rw [hres]
        simp only [specEntrySrcs]
        rw [if_neg hkn, if_neg hsn]

/-- Walking a section's entries: with every entry well formed, the
source-processing events are the per-entry plans in manifest order, each
entry starting with an empty name accumulator. -/
theorem procEntries_spec (ctx : Ctx) (sect : Sect) :
    ∀ (es : List (Option EntryKVs)) (st st' : RunSt),
    (es.filterMap id).all entryScoped = true →
    procEntries ctx sect st es = .ok st' →
    procSrcsOf st'.trace = procSrcsOf st.trace ++ specEntriesSrcs sect es := by
  intro es
  induction es with
  | nil =>
    intro st st' hall hrun
    simp only [procEntries] at hrun
    injection hrun with h1
    subst h1
    simp [specEntriesSrcs]
  | cons e rest ih =>
    intro st st' hall hrun
    simp only [procEntries] at hrun
    cases hp : procEntry ctx sect st e with
    | error err =>
      simp only [hp] at hrun
      exact absurd hrun (by simp)
    | ok stm =>
      simp only [hp] at hrun
      cases e with
      | none =>
        have hst : stm = st := by
          simp only [procEntry] at hp
          injection hp with h1
          exact h1.symm
        subst hst
        have hall' : (rest.filterMap id).all entryScoped = true := by
          simpa using hall
        rw [ih stm st' hall' hrun]
        simp [specEntriesSrcs]
      | some kvs =>
        have hall' : entryScoped kvs = true ∧
            (rest.filterMap id).all entryScoped = true := by
          simpa [Bool.and_eq_true] using hall
        have hp' : runKVs ctx sect st kvs = .ok stm := hp
        have h1 := runKVs_spec ctx sect kvs st none stm
          (by simpa [entryScoped] using hall'.1)
          (fun nm h => absurd h (by simp)) hp'
        rw [ih stm st' hall'.2 hrun, h1]
        simp [specEntriesSrcs, List.append_assoc]

/-- Section wrapper for `procEntries_spec` (a missing section contributes
no events). -/
theorem procSection_spec (ctx : Ctx) (sect : Sect) (st : RunSt)
    (entries : Option (List (Option EntryKVs))) (st' : RunSt)
    (hall : ((entries.getD []).filterMap id).all entryScoped = true)
    (h : procSection ctx sect st entries = .ok st') :
    procSrcsOf st'.trace = procSrcsOf st.trace ++
      specEntriesSrcs sect (entries.getD []) := by
  cases entries with
  | none =>
    simp only [procSection] at h
    injection h with h1
    subst h1
    simp [specEntriesSrcs]
  | some es => exact procEntries_spec ctx sect es st st' hall h

/-- The whole section walk matches the spec-side plan: includes first,
then plugins, in manifest order, entry-scoped names. -/
theorem procRecipe_spec (ctx : Ctx) (st : RunSt) (recipe : RecipeJson)
    (st' : RunSt) (hwf : recipeScoped recipe = true)
    (h : procRecipe ctx st recipe = .ok st') :
    procSrcsOf st'.trace = procSrcsOf st.trace ++ specRecipeSrcs recipe := by
  unfold recipeScoped at hwf
  rw [Bool.and_eq_true] at hwf
  obtain ⟨hw1, hw2⟩ := hwf
  simp only [procRecipe] at h
  cases h1 : procSection ctx .inc st recipe.includes with
  | error e =>
    simp only [h1] at h
    exact absurd h (by simp)
  | ok st2 =>
    simp only [h1] at h
    cases h2 : procSection ctx .plug st2 recipe.plugins with
    | error e =>
      simp only [h2] at h
      exact absurd h (by simp)
    | ok st3 =>
      simp only [h2] at h
      injection h with hif
      have hs1 := procSection_spec ctx .inc st recipe.includes st2 hw1 h1
      have hs2 := procSection_spec ctx .plug st2 recipe.plugins st3 hw2 h2
      have hst' : procSrcsOf st'.trace = procSrcsOf st3.trace := by
        rw [← hif]
        cases hup : recipe.updater
        · simp
        · simp [addTrace, procSrcsOf_append, procSrcsOf]
      rw [hst', hs2, hs1]
      simp only [specRecipeSrcs, List.append_assoc]

/-- C7: in every completed recipe run whose manifest is entry-scoped
(each entry presents `name` before any `source_url`), the source-url
processing steps are exactly the spec-side plan: entries are processed in
manifest order and every `source_url` is handled with the `name` of its
own entry, never with the name of a different entry. -/
theorem c7_entry_scoped_processing (ctx : Ctx) (fs0 : Fs) (recipeUrl : String)
    (bytes : List Nat) (s : String) (recipe : RecipeJson) (st' : RunSt)
    (hhttps : startsWithHttps recipeUrl = true)
    (hnet : ctx.net recipeUrl = NetResp.success bytes)
    (hdec : ctx.codec.dec bytes = some s)
    (hjson : ctx.parseJson s = some recipe)
    (hwf : recipeScoped recipe = true)
    (hok : check_for_updates ctx fs0 recipeUrl = .ok st') :
    procSrcsOf st'.trace = specRecipeSrcs recipe := by
  have hred : check_for_updates ctx fs0 recipeUrl =
      procRecipe ctx (addTrace (⟨fs0, none, none, 0, 0, 0, 0, []⟩ : RunSt)
        (get_url_contents ctx.net recipeUrl).1) recipe := by
    simp [check_for_updates, get_url_contents, hhttps, hnet, hdec, hjson]
  rw [hred] at hok
  rw [procRecipe_spec ctx _ recipe st' hwf hok]
  have h0 : procSrcsOf (addTrace (⟨fs0, none, none, 0, 0, 0, 0, []⟩ : RunSt)
      (get_url_contents ctx.net recipeUrl).1).trace = [] := by
    simp [addTrace, procSrcsOf, procSrcsOf_get_url]
  rw [h0]
  simp

set_option maxRecDepth 4000 in
/-- Witness for C7: a concrete completed run over a well-formed recipe
with one include and one plugin; its source-url processing steps are the
spec-side plan. -/
theorem c7_witness :
    recipeScoped recipe7 = true ∧
    procSrcsOf (cfuTrace (check_for_updates ctx7 [] "https://r7")) =
      specRecipeSrcs recipe7 := by
  constructor
  · decide
  · cases hok : check_for_updates ctx7 [] "https://r7" with
    | error e =>
      have hnone : errCode (check_for_updates ctx7 [] "https://r7") = none := by
        decide
      rw [hok] at hnone
      simp [errCode] at hnone
    | ok st' =>
      have hres := c7_entry_scoped_processing ctx7 [] "https://r7"
        (utf8Enc "R7") "R7" recipe7 st' (by decide) (by decide) (by decide)
        (by decide) (by decide) hok
      simpa [cfuTrace] using hres
